import Mathlib

/-!
Verification of the umzug migration orchestrator core.

Part 1 embeds `src/migration.ts` (the `Migration` class) shallowly:
JavaScript values relevant to the control flow are modelled by small
inductive types, the methods `migration()` / `_exec` / `up` / `down`
become pure Lean functions returning `Except`, and the single call the
wrapped action makes is tracked as a list of invoked function ids.

Part 2 models the orchestrator (`up` / `down` / `pending` / `executed`)
from the specification, because `src/umzug.ts` and the storage adapters
are not part of the sources; only their tests are.
-/

/-- A JavaScript value as returned by invoking a migration action:
either falsy, a thenable (a promise that resolves or rejects with a
message), or a truthy value without a `then` function. -/
inductive JsResult where
  | nullish : JsResult
  | thenable : Except String Unit → JsResult
  | plain : JsResult

/-- A JavaScript function value; `id` is its identity (used to record
which functions get invoked) and `ret` the value an invocation returns. -/
structure JsFun where
  id : Nat
  ret : JsResult

/-- A migration definition module as obtained by the custom resolver or
by `require(path)`: optional `up`/`down` function fields and an optional
`default` field (itself a module), mirroring the shape inspected by
`Migration.migration()` in `src/migration.ts`. -/
inductive MigModule where
  | mk : Option JsFun → Option JsFun → Option MigModule → MigModule

/-- The `up` field of the module. -/
def MigModule.up : MigModule → Option JsFun
  | .mk u _ _ => u

/-- The `down` field of the module. -/
def MigModule.down : MigModule → Option JsFun
  | .mk _ d _ => d

/-- The `default` field of the module. -/
def MigModule.dflt : MigModule → Option MigModule
  | .mk _ _ f => f

/-- The errors `src/migration.ts` can throw, each carrying the data the
thrown message carries in the source. -/
inductive MigErr where
  | resolutionError (path : String)
  | methodNotFoundError (method : String)
  | contractViolationError (file : String)
  | executionError (msg : String)
deriving DecidableEq

/-- The two method names `_exec` is ever called with. -/
inductive Method where
  | up
  | down
deriving DecidableEq

/-- The method's name as the string used in the thrown message. -/
def Method.name : Method → String
  | .up => "up"
  | .down => "down"

/-- `migration[method]`: field lookup on the module. -/
def MigModule.get : MigModule → Method → Option JsFun
  | m, .up => m.up
  | m, .down => m.down

/-- What a name formatter returns: a string, or a non-string value
carrying its `typeof` tag. -/
inductive JsVal where
  | str (s : String)
  | nonStr (typeofTag : String)
deriving DecidableEq

/-- The `Migration` instance of `src/migration.ts`, after construction:
`path` is the resolved path, `file` the formatter's result.  `resolved`
models what `options.migrations.customResolver(path)` (or
`require(path)`) yields for this path — `none` for a falsy result — and
`wrap` models `options.migrations.wrap`. -/
structure Migration where
  path : String
  file : String
  resolved : Option MigModule
  wrap : JsFun → JsFun

/-- The tail of `Migration`'s constructor (`src/migration.ts`
lines 41–44): apply the name formatter to the resolved path and throw
unless the result is a string; on success the string becomes the
`file` field of the new instance. -/
def Migration.mkFile (nameFormatter : String → JsVal) (resolvedPath : String) :
    Except String String :=
  match nameFormatter resolvedPath with
  | .str s => Except.ok s
  | .nonStr t =>
      Except.error
        ("Unexpected migration formatter result for '" ++ resolvedPath ++
          "': expected string, got " ++ t)

/-- The default name formatter of the constructor:
`(path) => _path.basename(path)` — the last path component, extension
kept. -/
def defaultNameFormatter (p : String) : JsVal :=
  JsVal.str (((p.splitOn "/").getLast?).getD p)

/-- `Migration.migration()` (`src/migration.ts` lines 52–70): take the
resolver's result for the path; a falsy result throws
`Failed to obtain migration definition module for '<path>'`; then, if
the result lacks both `up` and `down` but has a truthy `default` field,
replace it by that field, once. -/
def Migration.migrationDef (path : String) (resolved : Option MigModule) :
    Except MigErr MigModule :=
  match resolved with
  | none => Except.error (MigErr.resolutionError path)
  | some r =>
      if r.up.isNone && r.down.isNone && r.dflt.isSome then
        Except.ok (r.dflt.getD r)
      else
        Except.ok r

/-- `Migration._exec(method, args)` (`src/migration.ts` lines 102–117):
obtain the module, look the method up (throwing
`Could not find migration method: <method>` when absent), wrap the
function, invoke it, throw
`Migration <file> (or wrapper) didn't return a promise` when the result
is falsy or has no `then`, else await it.  The second component lists
the ids of the functions invoked. -/
def Migration.execMethod (m : Migration) (method : Method) :
    Except MigErr Unit × List Nat :=
  match Migration.migrationDef m.path m.resolved with
  | .error e => (Except.error e, [])
  | .ok module =>
      match module.get method with
      | none => (Except.error (MigErr.methodNotFoundError method.name), [])
      | some f =>
          let wrappedFun := m.wrap f
          match wrappedFun.ret with
          | .nullish =>
              (Except.error (MigErr.contractViolationError m.file), [wrappedFun.id])
          | .plain =>
              (Except.error (MigErr.contractViolationError m.file), [wrappedFun.id])
          | .thenable (.ok _) => (Except.ok (), [wrappedFun.id])
          | .thenable (.error msg) =>
              (Except.error (MigErr.executionError msg), [wrappedFun.id])

/-- `Migration.up(...args)`: `await this._exec('up', args)`. -/
def Migration.runUp (m : Migration) : Except MigErr Unit × List Nat :=
  m.execMethod Method.up

/-- `Migration.down(...args)`: `return this._exec('down', args)`. -/
def Migration.runDown (m : Migration) : Except MigErr Unit × List Nat :=
  m.execMethod Method.down

/-! ## Part 2: the orchestrator, modelled from the specification -/

instance : DecidableEq (Except String Unit) := fun a b =>
  match a, b with
  | .ok (), .ok () => isTrue rfl
  | .error x, .error y =>
      if h : x = y then isTrue (h ▸ rfl)
      else isFalse fun he => h (by injection he)
  | .ok _, .error _ => isFalse fun he => by injection he
  | .error _, .ok _ => isFalse fun he => by injection he

namespace Umzug

/-- A migration unit as the orchestrator sees it: a name and the
outcomes of its `up` / `down` actions (`Except.error` models the
action throwing). -/
structure MUnit where
  name : String
  upResult : Except String Unit
  downResult : Except String Unit
deriving DecidableEq

/-- Modelled from the spec: `pending()` of the missing orchestrator
(`src/umzug.ts` is not among the sources) — "returns sequence elements
not present in the Execution Record, in sequence order". -/
def pending (S : List MUnit) (record : List String) : List MUnit :=
  S.filter (fun u => decide (u.name ∉ record))

/-- Modelled from the spec: `executed()` of the missing orchestrator —
"returns sequence elements present in the Execution Record, in
sequence order". -/
def executed (S : List MUnit) (record : List String) : List MUnit :=
  S.filter (fun u => decide (u.name ∈ record))

/-- Modelled from the spec: the execution loop of `up` — "for each unit
in forward sequence order: invoke `runUp()`, on success call
`logMigration(name)`, on failure stop and raise an error identifying
the failed unit".  Returns the names whose `up` action was invoked (in
invocation order), the Execution Record afterwards, and the name of the
failed unit when the run stopped. -/
def runUpLoop : List MUnit → List String → List String × List String × Option String
  | [], record => ([], record, none)
  | u :: rest, record =>
      match u.upResult with
      | .error _ => ([u.name], record, some u.name)
      | .ok _ =>
          let r := runUpLoop rest (record ++ [u.name])
          (u.name :: r.1, r.2.1, r.2.2)

/-- Modelled from the spec: `up()` with no argument of the missing
orchestrator — "resolves the target subset (default: all pending)" and
runs the execution loop on it. -/
def up (S : List MUnit) (record : List String) :
    List String × List String × Option String :=
  runUpLoop (pending S record) record

/-- Modelled from the spec: `unlogMigration(name)` of the missing
storage adapter — the Execution Record is "a set of names" and "a
name's record is removed", so removal drops every occurrence of the
name. -/
def unlogMigration (record : List String) (name : String) : List String :=
  record.filter (fun n => decide (n ≠ name))

/-- Modelled from the spec: `down()` with no argument of the missing
orchestrator — "resolves the target subset (default: the single
most-recently-executed unit)"; for it, "invoke `runDown()`, on success
call `unlogMigration(name)`, on failure stop and raise identifying the
failed unit"; a named target absent from the sequence raises before
executing anything.  Returns the names whose `down` action was invoked,
the Execution Record afterwards, and the failed or missing name when
the call raised. -/
def down (S : List MUnit) (record : List String) :
    List String × List String × Option String :=
  match record.getLast? with
  | none => ([], record, none)
  | some lastName =>
      match S.find? (fun u => decide (u.name = lastName)) with
      | none => ([], record, some lastName)
      | some u =>
          match u.downResult with
          | .error _ => ([u.name], record, some u.name)
          | .ok _ => ([u.name], unlogMigration record lastName, none)

end Umzug

/-! ## Part 3: glob resolution, modelled from the specification -/

/-- Modelled from the spec: the file-enumeration collaborator of the
missing `resolveMigrations` (`src/umzug.ts` is not among the sources)
for a glob pattern of the shape `*.<ext>` — keeps, in enumeration
order, exactly the files whose name ends with the extension; `*` does
not cross a directory separator. -/
def globMatches (ext : String) (files : List String) : List String :=
  files.filter (fun f => ext.data.isSuffixOf f.data && f.data.all (fun c => !(c = '/')))

/-- Splits a character list at every occurrence of `c` (the pieces do
not contain `c`; n separators yield n+1 pieces). -/
def splitChar (c : Char) : List Char → List (List Char)
  | [] => [[]]
  | x :: xs =>
      let r := splitChar c xs
      if x = c then [] :: r
      else
        match r with
        | [] => [[x]]
        | y :: ys => (x :: y) :: ys

/-- Joins character lists, placing `c` between adjacent pieces. -/
def joinChar (c : Char) : List (List Char) → List Char
  | [] => []
  | [x] => x
  | x :: xs => x ++ c :: joinChar c xs

/-- The last path component of a relative path. -/
def stripDirectory (p : String) : String :=
  String.mk (((splitChar '/' p.data).getLast?).getD p.data)

/-- Removes the file extension: drops the part after the last dot when
the name contains one. -/
def stripExtension (s : String) : String :=
  let parts := splitChar '.' s.data
  if parts.length ≤ 1 then s else String.mk (joinChar '.' parts.dropLast)

/-- Modelled from the spec: the name derivation of the missing
`resolveMigrations` for glob sources — the default name-formatter
strips the directory and the file extension (spec §8: names have the
"extension stripped by default name-formatter"). -/
def globName (p : String) : String :=
  stripExtension (stripDirectory p)

/-- A resolved unit of a glob source: derived name plus matched path. -/
structure ResolvedUnit where
  name : String
  path : String
deriving DecidableEq

/-- Modelled from the spec: `resolveMigrations` on the glob form — each
matched path becomes a unit whose name the default name-formatter
derives from the path. -/
def resolveGlob (ext : String) (files : List String) : List ResolvedUnit :=
  (globMatches ext files).map (fun p => ⟨globName p, p⟩)

/-! ## Theorems about `src/migration.ts` -/

/-- C7: for every Migration unit, if obtaining the migration definition
fails because the resolver (custom resolver or default import) returns
nothing (a falsy value), the invocation — via `up()` or `down()` —
raises a `ResolutionError` naming the unit's path, and no action is
invoked. -/
theorem exec_resolution_error (m : Migration) (h : m.resolved = none) :
    m.runUp = (Except.error (MigErr.resolutionError m.path), []) ∧
    m.runDown = (Except.error (MigErr.resolutionError m.path), []) := by
  constructor <;>
    simp [Migration.runUp, Migration.runDown, Migration.execMethod,
      Migration.migrationDef, h]

/-- Witness for `exec_resolution_error` at a concrete migration. -/
theorem exec_resolution_error_witness :
    (Migration.mk "/m/p.js" "p.js" none (fun f => f)).runUp
      = (Except.error (MigErr.resolutionError "/m/p.js"), []) :=
  (exec_resolution_error ⟨"/m/p.js", "p.js", none, fun f => f⟩ rfl).1

/-- C5: for every Migration unit whose obtained migration definition
lacks the requested method, the invocation raises a
`MethodNotFoundError` naming the missing method, and no action is
invoked. -/
theorem exec_method_not_found (m : Migration) (module : MigModule) (method : Method)
    (hres : Migration.migrationDef m.path m.resolved = Except.ok module)
    (hmiss : module.get method = none) :
    m.execMethod method = (Except.error (MigErr.methodNotFoundError method.name), []) := by
  simp [Migration.execMethod, hres, hmiss]

/-- Witness for `exec_method_not_found`: a definition with only `up`,
invoked via `down()`. -/
theorem exec_method_not_found_witness :
    (Migration.mk "p" "m1"
        (some (MigModule.mk (some ⟨0, JsResult.thenable (Except.ok ())⟩) none none))
        (fun f => f)).runDown
      = (Except.error (MigErr.methodNotFoundError "down"), []) :=
  exec_method_not_found _
    (MigModule.mk (some ⟨0, JsResult.thenable (Except.ok ())⟩) none none)
    Method.down rfl rfl

/-- C6: for every Migration unit, if the wrapped action, when invoked
via `up()` or `down()`, returns a value that is not awaitable (falsy or
lacking a `then` function), the invocation raises a
`ContractViolationError` naming the migration (its `file` field). -/
theorem exec_contract_violation (m : Migration) (module : MigModule) (method : Method)
    (f : JsFun)
    (hres : Migration.migrationDef m.path m.resolved = Except.ok module)
    (hget : module.get method = some f)
    (hbad : (m.wrap f).ret = JsResult.nullish ∨ (m.wrap f).ret = JsResult.plain) :
    m.execMethod method
      = (Except.error (MigErr.contractViolationError m.file), [(m.wrap f).id]) := by
  rcases hbad with hb | hb <;> simp [Migration.execMethod, hres, hget, hb]

/-- Witness for `exec_contract_violation`: an `up` action returning a
truthy value without a `then` function. -/
theorem exec_contract_violation_witness :
    (Migration.mk "p" "m1" (some (MigModule.mk (some ⟨5, JsResult.plain⟩) none none))
        (fun f => f)).execMethod Method.up
      = (Except.error (MigErr.contractViolationError "m1"), [5]) :=
  exec_contract_violation _ (MigModule.mk (some ⟨5, JsResult.plain⟩) none none)
    Method.up ⟨5, JsResult.plain⟩ rfl rfl (Or.inr rfl)

/-- C9: default-export unwrapping happens exactly once and only when
the resolved value lacks both `up` and `down` and has a truthy
`default` field (the result is that field itself, never unwrapped
further); a value that has either `up` or `down` is returned as-is. -/
theorem migrationDef_default_unwrap (path : String) (r : MigModule) :
    (∀ d : MigModule, r.up = none → r.down = none → r.dflt = some d →
        Migration.migrationDef path (some r) = Except.ok d) ∧
    (∀ f : JsFun, r.up = some f ∨ r.down = some f →
        Migration.migrationDef path (some r) = Except.ok r) := by
  constructor
  · intro d hu hd hf
    simp [Migration.migrationDef, hu, hd, hf]
  · intro f h
    rcases h with h | h <;> simp [Migration.migrationDef, h]

/-- Witness for `migrationDef_default_unwrap`: a module whose `default`
field again has only a `default` field; the unwrapping stops after one
step, and a module with an `up` field is returned untouched. -/
theorem migrationDef_default_unwrap_witness :
    Migration.migrationDef "p"
        (some (MigModule.mk none none
          (some (MigModule.mk none none (some (MigModule.mk none none none))))))
      = Except.ok (MigModule.mk none none (some (MigModule.mk none none none))) ∧
    Migration.migrationDef "q"
        (some (MigModule.mk (some ⟨0, JsResult.plain⟩) none
          (some (MigModule.mk none none none))))
      = Except.ok (MigModule.mk (some ⟨0, JsResult.plain⟩) none
          (some (MigModule.mk none none none))) :=
  ⟨(migrationDef_default_unwrap "p" _).1 _ rfl rfl rfl,
   (migrationDef_default_unwrap "q" _).2 ⟨0, JsResult.plain⟩ (Or.inl rfl)⟩

/-- C10: if the name formatter applied to the resolved path returns a
non-string value, the constructor throws and no unit is created; every
successfully constructed Migration's `file` field is the string the
formatter returned. -/
theorem mkFile_string_or_throw (nf : String → JsVal) (p : String) :
    (∀ t, nf p = JsVal.nonStr t → ∃ msg, Migration.mkFile nf p = Except.error msg) ∧
    (∀ f, Migration.mkFile nf p = Except.ok f → nf p = JsVal.str f) := by
  constructor
  · intro t h
    refine ⟨"Unexpected migration formatter result for '" ++ p ++
      "': expected string, got " ++ t, ?_⟩
    rw [Migration.mkFile, h]
  · intro f h
    rcases hv : nf p with s | t
    · rw [Migration.mkFile, hv] at h
      cases h
      rfl
    · rw [Migration.mkFile, hv] at h
      cases h

/-- Witness for `mkFile_string_or_throw`: a formatter returning a
number makes the constructor throw; one returning a string succeeds
with that string. -/
theorem mkFile_string_or_throw_witness :
    (∃ msg, Migration.mkFile (fun _ => JsVal.nonStr "number") "/a/b.js"
        = Except.error msg) ∧
    (fun _ => JsVal.str "b.js") "/a/b.js" = JsVal.str "b.js" :=
  ⟨(mkFile_string_or_throw (fun _ => JsVal.nonStr "number") "/a/b.js").1 "number" rfl,
   (mkFile_string_or_throw (fun _ => JsVal.str "b.js") "/a/b.js").2 "b.js" rfl⟩

/-! ## Theorem about glob resolution -/

/-- C8: resolving a glob source with pattern `*.sql` over the four
files of the test yields exactly three units named `migration1`,
`migration2`, `migration3`, each with its path, and
`should-be-ignored.txt` is excluded. -/
theorem resolveGlob_sql_example :
    resolveGlob ".sql"
        ["migration1.sql", "migration2.sql", "should-be-ignored.txt", "migration3.sql"]
      = [⟨"migration1", "migration1.sql"⟩, ⟨"migration2", "migration2.sql"⟩,
         ⟨"migration3", "migration3.sql"⟩] := by
  decide

/-! ## Theorems about the modelled orchestrator -/

namespace Umzug

/-- With an empty Execution Record every sequence element is pending. -/
theorem pending_nil (S : List MUnit) : pending S [] = S := by
  simp [pending]

/-- When every `up` action succeeds, the execution loop invokes every
unit in order, appends every name to the record in order, and raises
nothing. -/
theorem runUpLoop_all_ok : ∀ (S : List MUnit) (record : List String),
    (∀ u ∈ S, u.upResult = Except.ok ()) →
    runUpLoop S record = (S.map MUnit.name, record ++ S.map MUnit.name, none) := by
  intro S
  induction S with
  | nil => intro record _; simp [runUpLoop]
  | cons u rest ih =>
      intro record h
      have hu := h u (List.mem_cons_self u rest)
      have hrest : ∀ v ∈ rest, v.upResult = Except.ok () :=
        fun v hv => h v (List.mem_cons_of_mem u hv)
      simp [runUpLoop, hu, ih (record ++ [u.name]) hrest]

/-- When every unit of `pre` succeeds and `u` fails, the execution loop
invokes `pre` then `u` and stops: the record gains exactly the names of
`pre`, and the raised error names `u`. -/
theorem runUpLoop_fail : ∀ (pre : List MUnit) (u : MUnit) (post : List MUnit)
    (record : List String) (e : String),
    (∀ v ∈ pre, v.upResult = Except.ok ()) →
    u.upResult = Except.error e →
    runUpLoop (pre ++ u :: post) record
      = (pre.map MUnit.name ++ [u.name], record ++ pre.map MUnit.name, some u.name) := by
  intro pre
  induction pre with
  | nil => intro u post record e _ hu; simp [runUpLoop, hu]
  | cons v rest ih =>
      intro u post record e hpre hu
      have hv := hpre v (List.mem_cons_self v rest)
      have hrest : ∀ w ∈ rest, w.upResult = Except.ok () :=
        fun w hw => hpre w (List.mem_cons_of_mem v hw)
      simp [runUpLoop, hv, ih u post (record ++ [v.name]) e hrest hu]

end Umzug

/-- C1: for every resolved sequence `S` (all of whose `up` actions
succeed) and an initially empty Execution Record, `up()` with no
argument invokes the `up` action of every unit of `S` exactly once in
sequence order, records them all, raises nothing, and `executed()`
afterwards returns exactly the units of `S` in sequence order. -/
theorem up_from_empty (S : List Umzug.MUnit)
    (h : ∀ u ∈ S, u.upResult = Except.ok ()) :
    (Umzug.up S []).1 = S.map Umzug.MUnit.name ∧
    (Umzug.up S []).2.1 = S.map Umzug.MUnit.name ∧
    (Umzug.up S []).2.2 = none ∧
    Umzug.executed S (Umzug.up S []).2.1 = S := by
  have hrun : Umzug.up S [] = (S.map Umzug.MUnit.name, S.map Umzug.MUnit.name, none) := by
    rw [Umzug.up, Umzug.pending_nil, Umzug.runUpLoop_all_ok S [] h]
    simp
  refine ⟨by rw [hrun], by rw [hrun], by rw [hrun], ?_⟩
  rw [hrun]
  exact List.filter_eq_self.mpr fun u hu =>
    decide_eq_true (List.mem_map_of_mem Umzug.MUnit.name hu)

/-- Witness for `up_from_empty` at a concrete two-unit sequence. -/
theorem up_from_empty_witness :
    (Umzug.up [⟨"migration1", Except.ok (), Except.ok ()⟩,
        ⟨"migration2", Except.ok (), Except.ok ()⟩] []).1
      = ["migration1", "migration2"] :=
  (up_from_empty _ (by decide)).1

/-- C2: for every resolved sequence `pre ++ u :: post` with empty
initial Execution Record, if every unit of `pre` succeeds and the `up`
action of `u` throws (and `u` does not share a name with a unit of
`pre`), then `up()` invokes exactly `pre` then `u`, records exactly the
units of `pre`, does not record `u`, never invokes the units after `u`,
and raises an error identifying `u`. -/
theorem up_fail_midway (pre : List Umzug.MUnit) (u : Umzug.MUnit)
    (post : List Umzug.MUnit) (e : String)
    (hpre : ∀ v ∈ pre, v.upResult = Except.ok ())
    (hu : u.upResult = Except.error e)
    (hname : u.name ∉ pre.map Umzug.MUnit.name) :
    (Umzug.up (pre ++ u :: post) []).1 = pre.map Umzug.MUnit.name ++ [u.name] ∧
    (Umzug.up (pre ++ u :: post) []).2.1 = pre.map Umzug.MUnit.name ∧
    u.name ∉ (Umzug.up (pre ++ u :: post) []).2.1 ∧
    (Umzug.up (pre ++ u :: post) []).2.2 = some u.name := by
  have hrun : Umzug.up (pre ++ u :: post) []
      = (pre.map Umzug.MUnit.name ++ [u.name], pre.map Umzug.MUnit.name, some u.name) := by
    rw [Umzug.up, Umzug.pending_nil, Umzug.runUpLoop_fail pre u post [] e hpre hu]
    simp
  exact ⟨by rw [hrun], by rw [hrun], by rw [hrun]; exact hname, by rw [hrun]⟩

/-- Witness for `up_fail_midway`: three units, the second one failing. -/
theorem up_fail_midway_witness :
    (Umzug.up [⟨"m1", Except.ok (), Except.ok ()⟩,
        ⟨"m2", Except.error "boom", Except.ok ()⟩,
        ⟨"m3", Except.ok (), Except.ok ()⟩] []).1 = ["m1", "m2"] ∧
    (Umzug.up [⟨"m1", Except.ok (), Except.ok ()⟩,
        ⟨"m2", Except.error "boom", Except.ok ()⟩,
        ⟨"m3", Except.ok (), Except.ok ()⟩] []).2.1 = ["m1"] := by
  have h := up_fail_midway [⟨"m1", Except.ok (), Except.ok ()⟩]
    ⟨"m2", Except.error "boom", Except.ok ()⟩
    [⟨"m3", Except.ok (), Except.ok ()⟩] "boom" (by decide) rfl (by decide)
  exact ⟨h.1, h.2.1⟩

/-- C3: for every resolved sequence `S` whose `up` actions succeed,
calling `up()` and then `up()` again without an intervening `down()`
performs zero action invocations during the second call: the pending
subset is empty and the record is unchanged. -/
theorem up_idempotent (S : List Umzug.MUnit)
    (h : ∀ u ∈ S, u.upResult = Except.ok ()) :
    (Umzug.up S ((Umzug.up S []).2.1)).1 = [] ∧
    Umzug.pending S ((Umzug.up S []).2.1) = [] ∧
    (Umzug.up S ((Umzug.up S []).2.1)).2.1 = (Umzug.up S []).2.1 := by
  have hrec : (Umzug.up S []).2.1 = S.map Umzug.MUnit.name := (up_from_empty S h).2.1
  have hpend : Umzug.pending S (S.map Umzug.MUnit.name) = [] := by
    refine List.filter_eq_nil_iff.mpr fun u hu => ?_
    simp [List.mem_map_of_mem Umzug.MUnit.name hu]
  rw [hrec]
  refine ⟨?_, hpend, ?_⟩ <;> rw [Umzug.up, hpend] <;> rfl

/-- Witness for `up_idempotent` at a concrete two-unit sequence. -/
theorem up_idempotent_witness :
    (Umzug.up [⟨"m1", Except.ok (), Except.ok ()⟩,
        ⟨"m2", Except.ok (), Except.ok ()⟩]
      ((Umzug.up [⟨"m1", Except.ok (), Except.ok ()⟩,
        ⟨"m2", Except.ok (), Except.ok ()⟩] []).2.1)).1 = [] :=
  (up_idempotent [⟨"m1", Except.ok (), Except.ok ()⟩,
    ⟨"m2", Except.ok (), Except.ok ()⟩] (by decide)).1

/-- C4: `down()` with no argument invokes the `down` action of exactly
the single most recently recorded unit (the unit of the sequence whose
name is the last of the record) and removes only that unit's name from
the Execution Record, leaving all other recorded names unchanged, in
order. -/
theorem down_last (S : List Umzug.MUnit) (rs : List String) (lastName : String)
    (u : Umzug.MUnit)
    (hfind : S.find? (fun v => decide (v.name = lastName)) = some u)
    (hok : u.downResult = Except.ok ())
    (hnotin : lastName ∉ rs) :
    (Umzug.down S (rs ++ [lastName])).1 = [u.name] ∧
    u.name = lastName ∧
    (Umzug.down S (rs ++ [lastName])).2.1 = rs ∧
    (Umzug.down S (rs ++ [lastName])).2.2 = none := by
  have hname : u.name = lastName := by
    have := List.find?_some hfind
    simpa using this
  have hlast : (rs ++ [lastName]).getLast? = some lastName := by simp
  have hunlog : Umzug.unlogMigration (rs ++ [lastName]) lastName = rs := by
    rw [Umzug.unlogMigration, List.filter_append]
    have h1 : rs.filter (fun n => decide (n ≠ lastName)) = rs :=
      List.filter_eq_self.mpr fun n hn =>
        decide_eq_true fun hEq => hnotin (hEq ▸ hn)
    have h2 : [lastName].filter (fun n => decide (n ≠ lastName)) = [] := by simp
    rw [h1, h2, List.append_nil]
  rw [Umzug.down, hlast]
  simp [hfind, hok, hunlog, hname]

/-- Witness for `down_last`: a two-unit sequence with both units
recorded; `down()` undoes `m2` and leaves `m1` recorded. -/
theorem down_last_witness :
    (Umzug.down [⟨"m1", Except.ok (), Except.ok ()⟩,
        ⟨"m2", Except.ok (), Except.ok ()⟩] (["m1"] ++ ["m2"])).1 = ["m2"] ∧
    (Umzug.down [⟨"m1", Except.ok (), Except.ok ()⟩,
        ⟨"m2", Except.ok (), Except.ok ()⟩] (["m1"] ++ ["m2"])).2.1 = ["m1"] := by
  have h := down_last [⟨"m1", Except.ok (), Except.ok ()⟩,
      ⟨"m2", Except.ok (), Except.ok ()⟩] ["m1"] "m2"
      ⟨"m2", Except.ok (), Except.ok ()⟩ (by decide) rfl (by decide)
  exact ⟨by rw [h.1, h.2.1], h.2.2.1⟩
